import Mathlib

/-!
Verification of the MLX90614 infrared-thermometer driver
(`lib_mlx90614.c`, `mlx90614_support.c`) against its natural-language
specification.

The C sources are shallowly embedded: machine integers become `Nat`
(with explicit `% 2^w` where the C code casts), the I2C transport is a
parameter supplying, per call, the return value of the underlying
`I2CMaster_WriteThenRead` / `I2CMaster_Write` primitive and the bytes
left in the read buffer, and `float`/`double` arithmetic is modelled
exactly over `ℚ`.  Each definition mirrors one C function of the same
name; stateful functions take and return the device structure.
-/

set_option maxRecDepth 100000

namespace Mlx90614

/-- Temperature unit enumeration `mlx_temperature_unit` from
`lib_mlx90614.h`. -/
inductive TempUnit
| LINEARIZED
| KELVIN
| CELSIUS
| FAHRENHEIT
deriving DecidableEq

/-- Register address constant `MLX90614_RREG_TA` (0x06). -/
def MLX90614_RREG_TA : ℕ := 0x06

/-- Register address constant `MLX90614_RREG_TOBJ1` (0x07). -/
def MLX90614_RREG_TOBJ1 : ℕ := 0x07

/-- Register address constant `MLX90614_RREG_TOBJ2` (0x08). -/
def MLX90614_RREG_TOBJ2 : ℕ := 0x08

/-- Register address constant `MLX90614_EREG_ECC` (0x24). -/
def MLX90614_EREG_ECC : ℕ := 0x24

/-- Register address constant `MLX90614_EREG_SMBUS_ADDR` (0x2E). -/
def MLX90614_EREG_SMBUS_ADDR : ℕ := 0x2E

/-- Register address constant `MLX90614_EREG_ID1` (0x3C). -/
def MLX90614_EREG_ID1 : ℕ := 0x3C

/-- Device descriptor `mlx90614_t`.  Fields `i2c_fd`, `i2c_addr`,
`device_id[4]` and `temperature_unit` are declared in the public header;
the temperature / range fields are the further members accessed by
`lib_mlx90614.c` (`p_mlx->tobj1`, `p_mlx->tobj2`, `p_mlx->tomax`,
`p_mlx->tomin`, `p_mlx->ta_range`), whose declaring struct variant is
not among the given sources.  The `device_id` array is unrolled into
four fields; 16-bit register values are stored as their `Nat` bit
patterns. -/
structure Mlx90614T where
  i2c_fd : ℤ
  i2c_addr : ℕ
  device_id0 : ℕ
  device_id1 : ℕ
  device_id2 : ℕ
  device_id3 : ℕ
  temperature_unit : TempUnit
  tobj1 : ℕ
  tobj2 : ℕ
  tomax : ℕ
  tomin : ℕ
  ta_range : ℕ
deriving DecidableEq

/-- One iteration of the bit loop inside `crc8` (`mlx90614_support.c`):
shift left (with the `uint8_t` cast, i.e. `% 256`), XORing in 0x07 when
the top bit was set before the shift. -/
def crc8Round (result : ℕ) : ℕ :=
  if result &&& 0x80 ≠ 0 then ((result <<< 1) % 256) ^^^ 0x07
  else (result <<< 1) % 256

/-- The `crc8` function from `mlx90614_support.c`: XOR the data byte
into the previous CRC, then run the bit loop eight times (unrolled
here). -/
def crc8 (prev_crc data : ℕ) : ℕ :=
  crc8Round (crc8Round (crc8Round (crc8Round
    (crc8Round (crc8Round (crc8Round (crc8Round (prev_crc ^^^ data))))))))

/-- The eight bits of a byte, most significant first. -/
def byteBitsMSB (b : ℕ) : List ℕ :=
  (List.range 8).map fun i => (b >>> (7 - i)) % 2

/-- One step of binary polynomial long division by
x^8 + x^2 + x + 1 (bit pattern 0x107), consuming one message bit,
MSB first. -/
def polyDivStep (rem bit : ℕ) : ℕ :=
  let r := 2 * rem + bit
  if 256 ≤ r then r ^^^ 0x107 else r

/-- Reference CRC-8 computed directly from the polynomial definition:
the remainder of (message · x^8) divided by x^8 + x^2 + x + 1 over
GF(2), message bits MSB first, zero initial remainder, no final XOR. -/
def crcRef (msg : List ℕ) : ℕ :=
  (((msg.map byteBitsMSB).flatten) ++ List.replicate 8 0).foldl polyDivStep 0

/-- Helper: every `crc8Round` output is an 8-bit value. -/
theorem crc8Round_lt (r : ℕ) : crc8Round r < 256 := by
  unfold crc8Round
  split
  · exact Nat.xor_lt_two_pow (n := 8) (Nat.mod_lt _ (by norm_num)) (by norm_num)
  · exact Nat.mod_lt _ (by norm_num)

/-- Claim C4: `crc8` is a function on the 8-bit domain (its result is
always below 256), and folding it from seed 0 over the fixed test
vector {0xB4, 0x07, 0xB5, 0xAD, 0x27} — the write-address byte for bus
address 0x5A, register 0x07, the read-address byte, and the two data
bytes 0xAD, 0x27 — equals the reference byte computed directly from the
polynomial x^8 + x^2 + x^1 + 1 (MSB-first, no final XOR, zero seed). -/
theorem crc8_matches_polynomial_reference :
    (∀ prev data : ℕ, crc8 prev data < 256) ∧
    List.foldl crc8 0 [0xB4, 0x07, 0xB5, 0xAD, 0x27] =
      crcRef [0xB4, 0x07, 0xB5, 0xAD, 0x27] := by
  constructor
  · intro prev data
    exact crc8Round_lt _
  · decide

/-- The value returned by the `i2c_read` helper of `mlx90614_support.c`
when the pointers are non-null: the `I2CMaster_WriteThenRead` transport
return value (`-1` on transport failure, else the byte count) minus one
("Return length of read data only"). -/
def i2c_read_ret (transferRet : ℤ) : ℤ := transferRet - 1

/-- The expected-PEC computation inside `reg_read`: the successive
`crc8` folds of the C code over write-address byte, register address,
read-address byte, LSB and MSB, hoisted into a named function. -/
def regReadPec (i2c_addr reg_addr b0 b1 : ℕ) : ℕ :=
  crc8 (crc8 (crc8 (crc8 (crc8 0 ((i2c_addr <<< 1) % 256)) reg_addr)
    (((i2c_addr <<< 1) % 256) ||| 1)) b0) b1

/-- The `reg_read` function of `mlx90614_support.c`, with the transport
behaviour of this one call supplied as parameters: `transferRet` is the
`I2CMaster_WriteThenRead` return value, and `b0 b1 b2` are the bytes
the 3-byte buffer holds after the call (on a failed transfer the
buffer is untouched stack memory, so the bytes are arbitrary).  `out0`
is the value the output parameter `*p_reg_value` held before the call;
the second component of the result is its value after the call. -/
def reg_read (i2c_addr reg_addr : ℕ) (transferRet : ℤ) (b0 b1 b2 : ℕ)
    (out0 : ℕ) : Bool × ℕ :=
  if i2c_read_ret transferRet ≠ -1 then
    if b2 = regReadPec i2c_addr reg_addr b0 b1 then
      (true, ((b1 <<< 8) ||| b0) % 65536)
    else (false, out0)
  else (false, out0)

/-- The 4-byte frame `[reg_addr, LSB, MSB, PEC]` that `reg_write` hands
to `i2c_write` (which prepends the register address to the 3-byte
buffer). -/
def reg_write_frame (i2c_addr reg_addr reg_value : ℕ) : List ℕ :=
  let b0 := reg_value &&& 0x00FF
  let b1 := (reg_value >>> 8) % 256
  let pec := crc8 (crc8 (crc8 (crc8 0 ((i2c_addr <<< 1) % 256)) reg_addr) b0) b1
  [reg_addr, b0, b1, pec]

/-- The boolean result of `reg_write` (`mlx90614_support.c`): the
`i2c_write` helper returns the `I2CMaster_Write` transport result
unchanged, and `reg_write` succeeds iff it is not `-1`. -/
def reg_write (i2c_addr reg_addr reg_value : ℕ) (transferRet : ℤ) : Bool :=
  if transferRet ≠ -1 then true else false

/-- The `eeprom_write` function of `mlx90614_support.c`.  `r1` and `r2`
are the transport return values for the erase (`reg_write` of 0) and
value `reg_write` calls respectively.  The result pairs the sequence of
(register, value) pairs actually handed to `reg_write`, in order, with
the returned boolean.  The two `nanosleep` settling delays are real
time and have no data effect. -/
def eeprom_write (i2c_addr reg_addr reg_value : ℕ) (r1 r2 : ℤ) :
    List (ℕ × ℕ) × Bool :=
  let b := reg_write i2c_addr reg_addr 0 r1
  if b then ([(reg_addr, 0), (reg_addr, reg_value)],
             reg_write i2c_addr reg_addr reg_value r2)
  else ([(reg_addr, 0)], b)

/-- Claim C2 counterexample: the claim states that `eeprom_write`
always issues exactly two register writes, the value write being
attempted even when the erase write failed.  In the code the value
write is guarded by the erase result: with the erase transport call
failing (return `-1`), only one write (the erase) is issued. -/
theorem eeprom_write_skips_value_write_on_erase_failure :
    eeprom_write 0x5A 0x24 0x3333 (-1) 7 = ([(0x24, 0)], false) ∧
    (eeprom_write 0x5A 0x24 0x3333 (-1) 7).1.length = 1 ∧ (1 : ℕ) ≠ 2 := by
  refine ⟨by decide, by decide, by decide⟩

/-- Claim C2 (amended): `eeprom_write` issues the erase write (value
0x0000) first; when the erase transport call succeeds it then issues
the value write (erase strictly before value, exactly two writes) and
returns the value write result; when the erase transport call fails it
skips the value write (exactly one write is issued) and returns false.
In every case it returns false whenever the erase transport call
failed. -/
theorem eeprom_write_sequencing (i2c_addr reg_addr reg_value : ℕ) (r1 r2 : ℤ) :
    ((eeprom_write i2c_addr reg_addr reg_value r1 r2).1.head? =
      some (reg_addr, 0)) ∧
    (r1 ≠ -1 →
      eeprom_write i2c_addr reg_addr reg_value r1 r2 =
        ([(reg_addr, 0), (reg_addr, reg_value)],
         reg_write i2c_addr reg_addr reg_value r2)) ∧
    (r1 = -1 →
      eeprom_write i2c_addr reg_addr reg_value r1 r2 = ([(reg_addr, 0)], false)) := by
  unfold eeprom_write reg_write
  by_cases h : r1 = -1 <;> simp [h]

/-- Witness for `eeprom_write_sequencing` at concrete inputs. -/
theorem eeprom_write_sequencing_witness :
    eeprom_write 0x5A 0x24 0x3333 4 4 =
      ([(0x24, 0), (0x24, 0x3333)], reg_write 0x5A 0x24 0x3333 4) :=
  (eeprom_write_sequencing 0x5A 0x24 0x3333 4 4).2.1 (by decide)

/-- Claim C3 (code-bug demonstration): the claim requires `reg_read` to
return not-ok whenever the bus operation fails, never mutating the
output parameter on failure.  The `i2c_read` helper returns
`result - 1`, which maps the transport error value `-1` to `-2`, so the
`!= -1` failure check in `reg_read` can never fire on a failed
transfer: here the transfer fails (`transferRet = -1`), the untouched
buffer happens to hold bytes 0x00 0x00 0x06 whose PEC check passes
(0x06 is the expected PEC for register 0x07 at bus address 0x5A over
data 0x00 0x00), and `reg_read` reports success and overwrites the
output parameter (previously 0xBEEF) with 0. -/
theorem reg_read_accepts_failed_transfer :
    i2c_read_ret (-1) = -2 ∧ (-2 : ℤ) ≠ -1 ∧
    reg_read 0x5A 0x07 (-1) 0x00 0x00 0x06 0xBEEF = (true, 0) := by
  refine ⟨by decide, by decide, by decide⟩

/-- Array store `p_mlx->device_id[idx] = v` on the unrolled
`device_id` fields (indices ≥ 4 never occur in the code). -/
def setDeviceId (m : Mlx90614T) (idx v : ℕ) : Mlx90614T :=
  match idx with
  | 0 => { m with device_id0 := v }
  | 1 => { m with device_id1 := v }
  | 2 => { m with device_id2 := v }
  | 3 => { m with device_id3 := v }
  | _ => m

/-- Array read `p_mlx->device_id[idx]` on the unrolled fields. -/
def deviceId (m : Mlx90614T) : ℕ → ℕ
  | 0 => m.device_id0
  | 1 => m.device_id1
  | 2 => m.device_id2
  | 3 => m.device_id3
  | _ => 0

/-- The `for` loop of `mlx90614_get_id` (`lib_mlx90614.c`): read
register `MLX90614_EREG_ID1 + idx` via `reg_read` into the local
`reg_value` (whose address is passed, so its previous value is the
`out0` of each call), break returning false on a failed read, else
store into `device_id[idx]` and continue; after four successful reads
return true.  `bus` gives, per register address, the transport return
value and the three buffer bytes for the `reg_read` call at that
register.  The fuel argument counts the remaining iterations. -/
def get_id_loop (bus : ℕ → ℤ × ℕ × ℕ × ℕ) :
    ℕ → ℕ → ℕ → Mlx90614T → Bool × Mlx90614T
  | 0, _, _, m => (true, m)
  | fuel + 1, idx, reg_value, m =>
    let t := bus (MLX90614_EREG_ID1 + idx)
    let r := reg_read m.i2c_addr (MLX90614_EREG_ID1 + idx)
      t.1 t.2.1 t.2.2.1 t.2.2.2 reg_value
    if r.1 then get_id_loop bus fuel (idx + 1) r.2 (setDeviceId m idx r.2)
    else (false, m)

/-- The `mlx90614_get_id` function of `lib_mlx90614.c`.  The initial
`reg_value` local is uninitialized in the C; it is passed as 0 here,
which is sound because no path observes it before the first
assignment. -/
def mlx90614_get_id (bus : ℕ → ℤ × ℕ × ℕ × ℕ) (m : Mlx90614T) :
    Bool × Mlx90614T :=
  get_id_loop bus 4 0 0 m

/-- The `mlx90614_open` function of `lib_mlx90614.c`.  `allocOk` is the
outcome of `malloc` and `fresh` the (uninitialized) contents of the
allocation.  On successful allocation the code binds `i2c_fd` and
`i2c_addr`, sets the default Celsius unit, calls the device-ID read —
whose boolean result it discards — and returns the handle;
`b_is_init_ok` is cleared only by allocation failure. -/
def mlx90614_open (allocOk : Bool) (fresh : Mlx90614T) (i2c_fd : ℤ)
    (i2c_addr : ℕ) (bus : ℕ → ℤ × ℕ × ℕ × ℕ) : Option Mlx90614T :=
  if allocOk then
    let m := { fresh with i2c_fd := i2c_fd, i2c_addr := i2c_addr,
                          temperature_unit := TempUnit.CELSIUS }
    some (mlx90614_get_id bus m).2
  else none

/-- Sample uninitialized allocation contents, used as concrete inputs. -/
def garbageHandle : Mlx90614T :=
  { i2c_fd := -7, i2c_addr := 0x11, device_id0 := 0xAAAA,
    device_id1 := 0xBBBB, device_id2 := 0xCCCC, device_id3 := 0xDDDD,
    temperature_unit := TempUnit.KELVIN, tobj1 := 5, tobj2 := 6,
    tomax := 7, tomin := 8, ta_range := 9 }

/-- Transport on which every transfer fails (`I2CMaster_WriteThenRead`
returns `-1`) and the read buffer keeps zero bytes. -/
def busAllFail : ℕ → ℤ × ℕ × ℕ × ℕ := fun _ => (-1, 0, 0, 0)

/-- Claim C1 (code-bug demonstration): the claim requires `mlx90614_open`
to fail, release the allocation and return no handle when any of the
four device-ID register reads fails.  In the code the boolean result of
the ID read is discarded, so with a transport on which every read fails
(here: the very first ID read already returns false) `open` still
returns a handle — with the `device_id` fields left as allocation
garbage. -/
theorem open_returns_handle_despite_failed_id_read :
    (mlx90614_get_id busAllFail
      { garbageHandle with i2c_fd := 3, i2c_addr := 0x5A,
                           temperature_unit := TempUnit.CELSIUS }).1 = false ∧
    mlx90614_open true garbageHandle 3 0x5A busAllFail ≠ none ∧
    (mlx90614_open true garbageHandle 3 0x5A busAllFail).map
      Mlx90614T.device_id0 = some 0xAAAA := by
  refine ⟨by decide, by decide, by decide⟩

/-- Helper: the `tobj & 0x8000` test in the C code holds exactly when
bit 15 of the 16-bit value is set. -/
theorem and_8000_ne_zero_iff (v : ℕ) : v &&& 0x8000 ≠ 0 ↔ v.testBit 15 = true := by
  have h : (0x8000 : ℕ) = 2 ^ 15 := by norm_num
  rw [h, Nat.and_two_pow]
  cases hv : v.testBit 15 <;> simp

/-- The private `get_tobj1` function of `lib_mlx90614.c`: read TOBJ1,
fail (without storing) when the read fails or when bit 15 — the
sensor error flag — of the value is set, else store the value in the
`tobj1` field.  Transport behaviour of the single `reg_read` call is
supplied as parameters; the uninitialized local out-parameter is passed
as 0 (never observed before assignment). -/
def get_tobj1 (ret : ℤ) (b0 b1 b2 : ℕ) (m : Mlx90614T) : Bool × Mlx90614T :=
  let r := reg_read m.i2c_addr MLX90614_RREG_TOBJ1 ret b0 b1 b2 0
  if r.1 then
    if r.2 &&& 0x8000 ≠ 0 then (false, m)
    else (true, { m with tobj1 := r.2 })
  else (false, m)

/-- The private `get_tobj2` function of `lib_mlx90614.c`, identical to
`get_tobj1` but for register TOBJ2 and the `tobj2` field. -/
def get_tobj2 (ret : ℤ) (b0 b1 b2 : ℕ) (m : Mlx90614T) : Bool × Mlx90614T :=
  let r := reg_read m.i2c_addr MLX90614_RREG_TOBJ2 ret b0 b1 b2 0
  if r.1 then
    if r.2 &&& 0x8000 ≠ 0 then (false, m)
    else (true, { m with tobj2 := r.2 })
  else (false, m)

/-- The private `get_ta` function of `lib_mlx90614.c`: read the TA
(ambient temperature) register and, on success, store the value — into
the `tobj2` field. -/
def get_ta (ret : ℤ) (b0 b1 b2 : ℕ) (m : Mlx90614T) : Bool × Mlx90614T :=
  let r := reg_read m.i2c_addr MLX90614_RREG_TA ret b0 b1 b2 0
  if r.1 then (true, { m with tobj2 := r.2 })
  else (false, m)

/-- The `mlx90614_read_ta` function of the other `lib_mlx90614.c`
source variant; its body is the same as `get_ta`, storing the ambient
reading into the `tobj2` field. -/
def mlx90614_read_ta (ret : ℤ) (b0 b1 b2 : ℕ) (m : Mlx90614T) : Bool × Mlx90614T :=
  let r := reg_read m.i2c_addr MLX90614_RREG_TA ret b0 b1 b2 0
  if r.1 then (true, { m with tobj2 := r.2 })
  else (false, m)

/-- Claim C8: for every object-temperature read (TOBJ1 or TOBJ2), if
the register read fails or bit 15 (the sensor-side error flag) of the
value read is set, the operation reports failure and the device state —
in particular the stored object-temperature field — is unchanged;
otherwise the stored field is updated with the value read. -/
theorem get_tobj_error_flag_and_frame (ret : ℤ) (b0 b1 b2 : ℕ) (m : Mlx90614T) :
    (((reg_read m.i2c_addr MLX90614_RREG_TOBJ1 ret b0 b1 b2 0).1 = false →
        get_tobj1 ret b0 b1 b2 m = (false, m)) ∧
      (∀ v, reg_read m.i2c_addr MLX90614_RREG_TOBJ1 ret b0 b1 b2 0 = (true, v) →
        v.testBit 15 = true → get_tobj1 ret b0 b1 b2 m = (false, m)) ∧
      (∀ v, reg_read m.i2c_addr MLX90614_RREG_TOBJ1 ret b0 b1 b2 0 = (true, v) →
        v.testBit 15 = false →
        get_tobj1 ret b0 b1 b2 m = (true, { m with tobj1 := v }))) ∧
    (((reg_read m.i2c_addr MLX90614_RREG_TOBJ2 ret b0 b1 b2 0).1 = false →
        get_tobj2 ret b0 b1 b2 m = (false, m)) ∧
      (∀ v, reg_read m.i2c_addr MLX90614_RREG_TOBJ2 ret b0 b1 b2 0 = (true, v) →
        v.testBit 15 = true → get_tobj2 ret b0 b1 b2 m = (false, m)) ∧
      (∀ v, reg_read m.i2c_addr MLX90614_RREG_TOBJ2 ret b0 b1 b2 0 = (true, v) →
        v.testBit 15 = false →
        get_tobj2 ret b0 b1 b2 m = (true, { m with tobj2 := v }))) := by
  unfold get_tobj1 get_tobj2
  refine ⟨⟨fun h => ?_, fun v hv hb => ?_, fun v hv hb => ?_⟩,
          ⟨fun h => ?_, fun v hv hb => ?_, fun v hv hb => ?_⟩⟩
  · simp [h]
  · have hb' := (and_8000_ne_zero_iff v).mpr hb
    simp [hv, hb']
  · have hb' : v &&& 0x8000 = 0 := by
      by_contra hc
      rw [(and_8000_ne_zero_iff v).mp hc] at hb
      simp at hb
    simp [hv, hb']
  · simp [h]
  · have hb' := (and_8000_ne_zero_iff v).mpr hb
    simp [hv, hb']
  · have hb' : v &&& 0x8000 = 0 := by
      by_contra hc
      rw [(and_8000_ne_zero_iff v).mp hc] at hb
      simp at hb
    simp [hv, hb']

/-- Witness for `get_tobj_error_flag_and_frame`: a successful TOBJ1
read at bus address 0x5A of bytes 0xAD 0x27 with correct PEC 0x02 and
clear error flag stores 0x27AD in the `tobj1` field. -/
theorem get_tobj_error_flag_and_frame_witness :
    get_tobj1 4 0xAD 0x27 0x02 { garbageHandle with i2c_addr := 0x5A } =
      (true, { { garbageHandle with i2c_addr := 0x5A } with tobj1 := 0x27AD }) :=
  (get_tobj_error_flag_and_frame 4 0xAD 0x27 0x02
      { garbageHandle with i2c_addr := 0x5A }).1.2.2 0x27AD
    (by decide) (by decide)

/-- Claim C9: the ambient-temperature accessor path stores its
successfully read TA value into the object-temperature-2 field: after
every successful ambient read the handle field `tobj2` equals the
just-read TA register value, overwriting any prior object-2 reading,
in both `get_ta` and `mlx90614_read_ta`. -/
theorem get_ta_overwrites_tobj2 (ret : ℤ) (b0 b1 b2 : ℕ) (m : Mlx90614T) :
    ∀ v, reg_read m.i2c_addr MLX90614_RREG_TA ret b0 b1 b2 0 = (true, v) →
      get_ta ret b0 b1 b2 m = (true, { m with tobj2 := v }) ∧
      (get_ta ret b0 b1 b2 m).2.tobj2 = v ∧
      (∀ w, (get_ta ret b0 b1 b2 { m with tobj2 := w }).2.tobj2 = v) ∧
      mlx90614_read_ta ret b0 b1 b2 m = (true, { m with tobj2 := v }) := by
  intro v hv
  unfold get_ta mlx90614_read_ta
  refine ⟨by simp [hv], by simp [hv], fun w => by simp [hv], by simp [hv]⟩

/-- Witness for `get_ta_overwrites_tobj2`: a successful TA read of
bytes 0xAD 0x27 (PEC 0x14) at bus address 0x5A leaves 0x27AD in the
`tobj2` field. -/
theorem get_ta_overwrites_tobj2_witness :
    get_ta 4 0xAD 0x27 0x14 { garbageHandle with i2c_addr := 0x5A } =
      (true, { { garbageHandle with i2c_addr := 0x5A } with tobj2 := 0x27AD }) :=
  ((get_ta_overwrites_tobj2 4 0xAD 0x27 0x14
      { garbageHandle with i2c_addr := 0x5A }) 0x27AD (by decide)).1

/-- Truncation toward zero, the semantics of the C casts
`(int16_t)(float)` and `(uint16_t)(double)` for in-range values. -/
def truncQ (q : ℚ) : ℤ :=
  if 0 ≤ q then ⌊q⌋ else ⌈q⌉

/-- The private `convert_temp_unit_to_linear` function of
`lib_mlx90614.c`, parameterized by the device's selected unit
(`p_mlx->temperature_unit`).  Float arithmetic is modelled exactly over
`ℚ`; the final `(int16_t)` casts are truncation toward zero. -/
def convert_temp_unit_to_linear (unit : TempUnit) (united_temp : ℚ) : ℤ :=
  if unit = TempUnit.LINEARIZED then
    truncQ united_temp
  else
    let kelvin_temp : ℚ :=
      if unit = TempUnit.FAHRENHEIT then (united_temp - 32) * 5 / 9 + 273.15
      else if unit = TempUnit.CELSIUS then united_temp + 273.15
      else united_temp
    truncQ (kelvin_temp * 50)

/-- The private `convert_temp_linear_to_unit` function of
`lib_mlx90614.c`, parameterized by the device's selected unit. -/
def convert_temp_linear_to_unit (unit : TempUnit) (linear_temp : ℤ) : ℚ :=
  if unit = TempUnit.LINEARIZED then (linear_temp : ℚ)
  else
    let united_temp : ℚ := (linear_temp : ℚ) * 0.02
    if unit ≠ TempUnit.KELVIN then
      let united_temp := united_temp - 273.15
      if unit = TempUnit.FAHRENHEIT then united_temp * 9 / 5 + 32
      else united_temp
    else united_temp

/-- Claim C5: for every Celsius value v in [-50, 150] in steps of 0.5
(written v = k/2 for an integer k in [-100, 300]), with the unit set to
Celsius, `from_linear(to_linear(v))` differs from v by at most 0.02
(one linear-unit quantization step). -/
theorem celsius_roundtrip_within_quantum (k : ℤ) (h1 : -100 ≤ k) (h2 : k ≤ 300) :
    |convert_temp_linear_to_unit TempUnit.CELSIUS
        (convert_temp_unit_to_linear TempUnit.CELSIUS ((k : ℚ) / 2)) -
      (k : ℚ) / 2| ≤ 0.02 := by
  have hlin : convert_temp_unit_to_linear TempUnit.CELSIUS ((k : ℚ) / 2) =
      25 * k + 13657 := by
    unfold convert_temp_unit_to_linear truncQ
    have harg : ((k : ℚ) / 2 + 273.15) * 50 = (27315 : ℚ) / 2 + (25 * k : ℤ) := by
      push_cast
      ring
    have h1q : (-100 : ℚ) ≤ (k : ℚ) := by exact_mod_cast h1
    have hpos : (0 : ℚ) ≤ ((k : ℚ) / 2 + 273.15) * 50 := by
      rw [harg]
      push_cast
      linarith
    simp only [reduceCtorEq, if_false, if_neg, hpos, if_pos, if_true]
    rw [harg, Int.floor_add_int]
    have hfl : ⌊(27315 : ℚ) / 2⌋ = 13657 := by
      rw [Int.floor_eq_iff]
      norm_num
    rw [hfl]
    ring
  rw [hlin]
  unfold convert_temp_linear_to_unit
  simp only [reduceCtorEq, if_false, ne_eq, ite_false, ite_true, not_false_iff]
  push_cast
  rw [abs_le]
  constructor <;> nlinarith [h1, h2]

/-- Witness for `celsius_roundtrip_within_quantum` at v = 0 °C. -/
theorem celsius_roundtrip_within_quantum_witness :
    |convert_temp_linear_to_unit TempUnit.CELSIUS
        (convert_temp_unit_to_linear TempUnit.CELSIUS ((0 : ℚ) / 2)) -
      (0 : ℚ) / 2| ≤ 0.02 := by
  have h := celsius_roundtrip_within_quantum 0 (by norm_num) (by norm_num)
  simpa using h

/-- The `mlx90614_set_emissivity` function of `lib_mlx90614.c`.  The
result is the 16-bit value delegated to `eeprom_write` at the ECC cell
(`some`), or `none` when the range validation fails and no bus access
happens.  The C computes `(uint16_t)(emissivity * 65535.0)` — a
truncating cast — and raises the result to the 0x2000 floor before
delegating. -/
def mlx90614_set_emissivity (emissivity : ℚ) : Option ℕ :=
  if 1/10 ≤ emissivity ∧ emissivity ≤ 1 then
    let ecc := (truncQ (emissivity * 65535)).toNat
    let ecc := if ecc < 0x2000 then 0x2000 else ecc
    some ecc
  else none

/-- Claim C6 counterexample: the claim states the value written to the
ECC cell is round(e · 65535) (clamped to the 0x2000 floor).  The code
truncates instead of rounding: at e = 1/2 it writes 32767, while
round(1/2 · 65535) = round(32767.5) = 32768 (and the 0x2000 clamp does
not bite). -/
theorem set_emissivity_truncates_not_rounds :
    mlx90614_set_emissivity (1/2) = some 32767 ∧
    round ((1 : ℚ)/2 * 65535) = 32768 ∧
    max 0x2000 (32768 : ℕ) = 32768 ∧ (32767 : ℕ) ≠ 32768 := by
  refine ⟨?_, ?_, by norm_num, by norm_num⟩
  · unfold mlx90614_set_emissivity truncQ
    norm_num
    rfl
  · rw [round_eq]
    norm_num

/-- Claim C6 (amended): `set_emissivity` fails (no bus access) for
inputs below 0.1 or above 1.0; for e in [0.1, 1.0] the value delegated
to the EEPROM writer at the ECC cell is trunc(e · 65535) (truncation
toward zero, the C cast) clamped below to 0x2000.  In particular
0.05 fails, 0.2 gives max(0x2000, trunc(0.2 · 65535)) = 13107, and 1.0
gives 0xFFFF. -/
theorem set_emissivity_spec (e : ℚ) :
    (e < 1/10 → mlx90614_set_emissivity e = none) ∧
    (1 < e → mlx90614_set_emissivity e = none) ∧
    (1/10 ≤ e → e ≤ 1 →
      mlx90614_set_emissivity e =
        some (max 0x2000 (truncQ (e * 65535)).toNat)) ∧
    mlx90614_set_emissivity (5/100) = none ∧
    mlx90614_set_emissivity (2/10) = some 13107 ∧
    (13107 : ℕ) = max 0x2000 (truncQ ((2 : ℚ)/10 * 65535)).toNat ∧
    mlx90614_set_emissivity 1 = some 0xFFFF := by
  have hmax : ∀ n : ℕ, (if n < 0x2000 then 0x2000 else n) = max 0x2000 n := by
    intro n
    rw [Nat.max_def]
    split <;> split <;> omega
  have htr : truncQ ((2 : ℚ)/10 * 65535) = 13107 := by
    unfold truncQ
    rw [if_pos (by norm_num)]
    rw [show ((2 : ℚ)/10 * 65535) = ((13107 : ℤ) : ℚ) by norm_num, Int.floor_intCast]
  refine ⟨fun h => ?_, fun h => ?_, fun hlo hhi => ?_, ?_, ?_, ?_, ?_⟩
  · unfold mlx90614_set_emissivity
    rw [if_neg]
    rintro ⟨hc, -⟩
    linarith
  · unfold mlx90614_set_emissivity
    rw [if_neg]
    rintro ⟨-, hc⟩
    linarith
  · unfold mlx90614_set_emissivity
    rw [if_pos ⟨hlo, hhi⟩]
    simp only [hmax]
  · unfold mlx90614_set_emissivity
    norm_num
  · unfold mlx90614_set_emissivity truncQ
    norm_num
    rfl
  · rw [htr]
    norm_num
    rfl
  · unfold mlx90614_set_emissivity truncQ
    norm_num
    rfl

/-- Witness for `set_emissivity_spec`: the in-range conjunct applied at
e = 0.2. -/
theorem set_emissivity_spec_witness :
    mlx90614_set_emissivity (2/10) =
      some (max 0x2000 (truncQ ((2 : ℚ)/10 * 65535)).toNat) :=
  (set_emissivity_spec (2/10)).2.2.1 (by norm_num) (by norm_num)

/-- Helper: masking a 16-bit value with 0xFF00 keeps exactly the high
byte. -/
theorem and_ff00_eq (t : ℕ) (ht : t < 65536) :
    t &&& 0xFF00 = 256 * (t / 256) := by
  apply Nat.eq_of_testBit_eq
  intro i
  have h1 : (0xFF00 : ℕ) = 255 <<< 8 := by norm_num [Nat.shiftLeft_eq]
  have h2 : (255 : ℕ) = 2 ^ 8 - 1 := by norm_num
  have h3 : (256 : ℕ) * (t / 256) = 2 ^ 8 * (t / 256) := by norm_num
  have h4 : t / 256 = t >>> 8 := by
    rw [Nat.shiftRight_eq_div_pow]
  rw [Nat.testBit_and, h1, Nat.testBit_shiftLeft, h2,
    Nat.testBit_two_pow_sub_one, h3, Nat.testBit_mul_pow_two, h4,
    Nat.testBit_shiftRight]
  rcases Nat.lt_or_ge i 8 with hc | hc
  · simp [Nat.not_le_of_lt hc]
  · rcases Nat.lt_or_ge i 16 with hc2 | hc2
    · have he : 8 + (i - 8) = i := by omega
      simp [hc, he, show i - 8 < 8 by omega]
    · have hpow : t < 2 ^ i := by
        calc t < 65536 := ht
          _ = 2 ^ 16 := by norm_num
          _ ≤ 2 ^ i := Nat.pow_le_pow_right (by norm_num) (by omega)
      have hb : t.testBit i = false := Nat.testBit_lt_two_pow hpow
      have he : 8 + (i - 8) = i := by omega
      simp [hc, he, hb, show ¬ (i - 8 < 8) by omega]

/-- Helper: merging a byte below 0x80 into the cleared low byte sets
the low byte and keeps the high byte. -/
theorem merge_low_byte (t a : ℕ) (ht : t < 65536) (ha : a < 256) :
    (t &&& 0xFF00) ||| a = 256 * (t / 256) + a := by
  rw [and_ff00_eq t ht]
  have h3 : (256 : ℕ) * (t / 256) = 2 ^ 8 * (t / 256) := by norm_num
  rw [h3, ← Nat.mul_add_lt_is_or (by simpa using ha) (t / 256)]

/-- The `mlx90614_set_address` function of `lib_mlx90614.c`.
`readResult` abstracts the outcome of the `reg_read` of the SMBUS_ADDR
cell (`none` = the read returned false; `some t` = it stored the 16-bit
word `t`), and `eepromOk` the boolean returned by the delegated
`eeprom_write`.  The result pairs the returned boolean with the
(register, value) pair handed to `eeprom_write`, if any — `none` means
no write was delegated (and, for an out-of-range address, that no bus
access happened at all, the read outcome being ignored). -/
def mlx90614_set_address (address : ℕ) (readResult : Option ℕ)
    (eepromOk : Bool) : Bool × Option (ℕ × ℕ) :=
  if 0x00 < address ∧ address < 0x80 then
    match readResult with
    | none => (false, none)
    | some temp_addr =>
      let t1 := temp_addr &&& 0xFF00
      let t2 := t1 ||| address
      (eepromOk, some (MLX90614_EREG_SMBUS_ADDR, t2))
  else (false, none)

/-- Claim C7: `set_address` fails for address 0x00 and for every
address ≥ 0x80, independent of any bus outcome and delegating nothing;
for a valid address whose SMBUS_ADDR read fails it fails; for a valid
address with read word t it delegates (t &&& 0xFF00) ||| address to the
EEPROM writer at the SMBUS_ADDR cell — a word whose high byte is t's
high byte and whose low byte is the new address, as in particular for
address 0x41. -/
theorem set_address_spec (a t : ℕ) (r : Option ℕ) (e : Bool) :
    (mlx90614_set_address 0 r e = (false, none)) ∧
    (0x80 ≤ a → mlx90614_set_address a r e = (false, none)) ∧
    (0 < a → a < 0x80 → mlx90614_set_address a none e = (false, none)) ∧
    (0 < a → a < 0x80 → t < 65536 →
      mlx90614_set_address a (some t) e =
        (e, some (MLX90614_EREG_SMBUS_ADDR, (t &&& 0xFF00) ||| a)) ∧
      ((t &&& 0xFF00) ||| a) / 256 = t / 256 ∧
      ((t &&& 0xFF00) ||| a) % 256 = a) := by
  refine ⟨?_, fun h => ?_, fun h1 h2 => ?_, fun h1 h2 ht => ⟨?_, ?_, ?_⟩⟩
  · unfold mlx90614_set_address
    rw [if_neg]
    rintro ⟨hc, -⟩
    omega
  · unfold mlx90614_set_address
    rw [if_neg]
    rintro ⟨-, hc⟩
    omega
  · unfold mlx90614_set_address
    rw [if_pos ⟨h1, h2⟩]
  · unfold mlx90614_set_address
    rw [if_pos ⟨h1, h2⟩]
  · rw [merge_low_byte t a ht (by omega)]
    omega
  · rw [merge_low_byte t a ht (by omega)]
    omega

/-- Witness for `set_address_spec`: setting address 0x41 with the
SMBUS_ADDR cell reading 0xBE12 delegates 0xBE41 (high byte preserved,
low byte 0x41). -/
theorem set_address_spec_witness :
    mlx90614_set_address 0x41 (some 0xBE12) true =
      (true, some (MLX90614_EREG_SMBUS_ADDR, (0xBE12 &&& 0xFF00) ||| 0x41)) ∧
    ((0xBE12 &&& 0xFF00) ||| 0x41) / 256 = 0xBE12 / 256 ∧
    ((0xBE12 &&& 0xFF00) ||| 0x41) % 256 = 0x41 :=
  (set_address_spec 0x41 0xBE12 (some 0xBE12) true).2.2.2
    (by norm_num) (by norm_num) (by norm_num)

/-- Helper: the boolean component of `reg_read` does not depend on the
previous value of the output parameter. -/
theorem reg_read_fst_out_irrel (a r : ℕ) (ret : ℤ) (b0 b1 b2 x y : ℕ) :
    (reg_read a r ret b0 b1 b2 x).1 = (reg_read a r ret b0 b1 b2 y).1 := by
  unfold reg_read
  by_cases h1 : i2c_read_ret ret ≠ -1
  · rw [if_pos h1, if_pos h1]
    by_cases h2 : b2 = regReadPec a r b0 b1
    · rw [if_pos h2, if_pos h2]
    · rw [if_neg h2, if_neg h2]
  · rw [if_neg h1, if_neg h1]

/-- Helper: a successful `reg_read` result does not depend on the
previous value of the output parameter. -/
theorem reg_read_ok_out_irrel (a r : ℕ) (ret : ℤ) (b0 b1 b2 v x y : ℕ)
    (h : reg_read a r ret b0 b1 b2 y = (true, v)) :
    reg_read a r ret b0 b1 b2 x = (true, v) := by
  unfold reg_read at h ⊢
  by_cases h1 : i2c_read_ret ret ≠ -1
  · rw [if_pos h1] at h ⊢
    by_cases h2 : b2 = regReadPec a r b0 b1
    · rw [if_pos h2] at h ⊢
      exact h
    · rw [if_neg h2] at h
      simp at h
  · rw [if_neg h1] at h
    simp at h

/-- Helper: `setDeviceId` never changes the `i2c_addr` field. -/
@[simp] theorem setDeviceId_i2c_addr (m : Mlx90614T) (idx v : ℕ) :
    (setDeviceId m idx v).i2c_addr = m.i2c_addr := by
  unfold setDeviceId
  rcases idx with _ | _ | _ | _ | idx <;> rfl

/-- The `reg_read` call made by iteration `i` of the `mlx90614_get_id`
loop, with the initial (never-observed) out-parameter value 0. -/
def idRead (bus : ℕ → ℤ × ℕ × ℕ × ℕ) (m : Mlx90614T) (i : ℕ) : Bool × ℕ :=
  reg_read m.i2c_addr (MLX90614_EREG_ID1 + i) (bus (MLX90614_EREG_ID1 + i)).1
    (bus (MLX90614_EREG_ID1 + i)).2.1 (bus (MLX90614_EREG_ID1 + i)).2.2.1
    (bus (MLX90614_EREG_ID1 + i)).2.2.2 0

/-- Helper: one successful iteration of the ID-read loop stores the
value and recurses. -/
theorem get_id_loop_step_ok (bus : ℕ → ℤ × ℕ × ℕ × ℕ) (fuel idx rv : ℕ)
    (m : Mlx90614T) (v : ℕ)
    (h : reg_read m.i2c_addr (MLX90614_EREG_ID1 + idx)
      (bus (MLX90614_EREG_ID1 + idx)).1 (bus (MLX90614_EREG_ID1 + idx)).2.1
      (bus (MLX90614_EREG_ID1 + idx)).2.2.1 (bus (MLX90614_EREG_ID1 + idx)).2.2.2
      rv = (true, v)) :
    get_id_loop bus (fuel + 1) idx rv m =
      get_id_loop bus fuel (idx + 1) v (setDeviceId m idx v) := by
  simp only [get_id_loop]
  rw [h]
  simp

/-- Helper: a failed iteration of the ID-read loop stops, returning
false and the device state as updated so far. -/
theorem get_id_loop_step_fail (bus : ℕ → ℤ × ℕ × ℕ × ℕ) (fuel idx rv : ℕ)
    (m : Mlx90614T)
    (h : (reg_read m.i2c_addr (MLX90614_EREG_ID1 + idx)
      (bus (MLX90614_EREG_ID1 + idx)).1 (bus (MLX90614_EREG_ID1 + idx)).2.1
      (bus (MLX90614_EREG_ID1 + idx)).2.2.1 (bus (MLX90614_EREG_ID1 + idx)).2.2.2
      rv).1 = false) :
    get_id_loop bus (fuel + 1) idx rv m = (false, m) := by
  simp only [get_id_loop]
  rw [h]
  simp

/-- Claim C10: the four-word device-ID read is not atomic on failure.
If the register reads succeed for ID words 0..k-1 (yielding values
v 0 .. v (k-1)) and the read of word k fails (k < 4), then
`mlx90614_get_id` returns false while `device_id[0..k-1]` hold the
newly read values, `device_id[k..3]` keep their previous values, and
all other handle fields (bus handle, address, temperature unit, and
the temperature/range fields) are unchanged. -/
theorem get_id_partial_failure (bus : ℕ → ℤ × ℕ × ℕ × ℕ) (m : Mlx90614T)
    (k : ℕ) (v : ℕ → ℕ) (hk : k < 4)
    (hsucc : ∀ i, i < k → idRead bus m i = (true, v i))
    (hfail : (idRead bus m k).1 = false) :
    (mlx90614_get_id bus m).1 = false ∧
    (∀ i, i < k → deviceId (mlx90614_get_id bus m).2 i = v i) ∧
    (∀ i, k ≤ i → i < 4 → deviceId (mlx90614_get_id bus m).2 i = deviceId m i) ∧
    (mlx90614_get_id bus m).2.i2c_fd = m.i2c_fd ∧
    (mlx90614_get_id bus m).2.i2c_addr = m.i2c_addr ∧
    (mlx90614_get_id bus m).2.temperature_unit = m.temperature_unit ∧
    (mlx90614_get_id bus m).2.tobj1 = m.tobj1 ∧
    (mlx90614_get_id bus m).2.tobj2 = m.tobj2 ∧
    (mlx90614_get_id bus m).2.tomax = m.tomax ∧
    (mlx90614_get_id bus m).2.tomin = m.tomin ∧
    (mlx90614_get_id bus m).2.ta_range = m.ta_range := by
  interval_cases k
  · unfold idRead at hfail
    have hrun : mlx90614_get_id bus m = (false, m) := by
      unfold mlx90614_get_id
      exact get_id_loop_step_fail bus 3 0 0 m hfail
    rw [hrun]
    refine ⟨rfl, ?_, ?_, rfl, rfl, rfl, rfl, rfl, rfl, rfl, rfl⟩
    · intro i hi
      exact absurd hi (Nat.not_lt_zero i)
    · intro i hi1 hi2
      rfl
  · have h0 := hsucc 0 (by omega)
    unfold idRead at h0 hfail
    have hf1 : (reg_read (setDeviceId m 0 (v 0)).i2c_addr (MLX90614_EREG_ID1 + 1)
        (bus (MLX90614_EREG_ID1 + 1)).1 (bus (MLX90614_EREG_ID1 + 1)).2.1
        (bus (MLX90614_EREG_ID1 + 1)).2.2.1 (bus (MLX90614_EREG_ID1 + 1)).2.2.2
        (v 0)).1 = false := by
      simp only [setDeviceId_i2c_addr]
      rw [reg_read_fst_out_irrel _ _ _ _ _ _ (v 0) 0]
      exact hfail
    have hrun : mlx90614_get_id bus m = (false, setDeviceId m 0 (v 0)) := by
      unfold mlx90614_get_id
      calc get_id_loop bus 4 0 0 m
          = get_id_loop bus 3 1 (v 0) (setDeviceId m 0 (v 0)) :=
            get_id_loop_step_ok bus 3 0 0 m (v 0) h0
        _ = (false, setDeviceId m 0 (v 0)) :=
            get_id_loop_step_fail bus 2 1 (v 0) _ hf1
    rw [hrun]
    refine ⟨rfl, ?_, ?_, rfl, rfl, rfl, rfl, rfl, rfl, rfl, rfl⟩
    · intro i hi
      interval_cases i
      rfl
    · intro i hi1 hi2
      interval_cases i <;> rfl
  · have h0 := hsucc 0 (by omega)
    have h1 := hsucc 1 (by omega)
    unfold idRead at h0 h1 hfail
    have h1s : reg_read (setDeviceId m 0 (v 0)).i2c_addr (MLX90614_EREG_ID1 + 1)
        (bus (MLX90614_EREG_ID1 + 1)).1 (bus (MLX90614_EREG_ID1 + 1)).2.1
        (bus (MLX90614_EREG_ID1 + 1)).2.2.1 (bus (MLX90614_EREG_ID1 + 1)).2.2.2
        (v 0) = (true, v 1) := by
      simp only [setDeviceId_i2c_addr]
      exact reg_read_ok_out_irrel _ _ _ _ _ _ _ _ _ h1
    have hf2 : (reg_read (setDeviceId (setDeviceId m 0 (v 0)) 1 (v 1)).i2c_addr
        (MLX90614_EREG_ID1 + 2) (bus (MLX90614_EREG_ID1 + 2)).1
        (bus (MLX90614_EREG_ID1 + 2)).2.1 (bus (MLX90614_EREG_ID1 + 2)).2.2.1
        (bus (MLX90614_EREG_ID1 + 2)).2.2.2 (v 1)).1 = false := by
      simp only [setDeviceId_i2c_addr]
      rw [reg_read_fst_out_irrel _ _ _ _ _ _ (v 1) 0]
      exact hfail
    have hrun : mlx90614_get_id bus m =
        (false, setDeviceId (setDeviceId m 0 (v 0)) 1 (v 1)) := by
      unfold mlx90614_get_id
      calc get_id_loop bus 4 0 0 m
          = get_id_loop bus 3 1 (v 0) (setDeviceId m 0 (v 0)) :=
            get_id_loop_step_ok bus 3 0 0 m (v 0) h0
        _ = get_id_loop bus 2 2 (v 1) (setDeviceId (setDeviceId m 0 (v 0)) 1 (v 1)) :=
            get_id_loop_step_ok bus 2 1 (v 0) _ (v 1) h1s
        _ = (false, setDeviceId (setDeviceId m 0 (v 0)) 1 (v 1)) :=
            get_id_loop_step_fail bus 1 2 (v 1) _ hf2
    rw [hrun]
    refine ⟨rfl, ?_, ?_, rfl, rfl, rfl, rfl, rfl, rfl, rfl, rfl⟩
    · intro i hi
      interval_cases i <;> rfl
    · intro i hi1 hi2
      interval_cases i <;> rfl
  · have h0 := hsucc 0 (by omega)
    have h1 := hsucc 1 (by omega)
    have h2 := hsucc 2 (by omega)
    unfold idRead at h0 h1 h2 hfail
    have h1s : reg_read (setDeviceId m 0 (v 0)).i2c_addr (MLX90614_EREG_ID1 + 1)
        (bus (MLX90614_EREG_ID1 + 1)).1 (bus (MLX90614_EREG_ID1 + 1)).2.1
        (bus (MLX90614_EREG_ID1 + 1)).2.2.1 (bus (MLX90614_EREG_ID1 + 1)).2.2.2
        (v 0) = (true, v 1) := by
      simp only [setDeviceId_i2c_addr]
      exact reg_read_ok_out_irrel _ _ _ _ _ _ _ _ _ h1
    have h2s : reg_read (setDeviceId (setDeviceId m 0 (v 0)) 1 (v 1)).i2c_addr
        (MLX90614_EREG_ID1 + 2) (bus (MLX90614_EREG_ID1 + 2)).1
        (bus (MLX90614_EREG_ID1 + 2)).2.1 (bus (MLX90614_EREG_ID1 + 2)).2.2.1
        (bus (MLX90614_EREG_ID1 + 2)).2.2.2 (v 1) = (true, v 2) := by
      simp only [setDeviceId_i2c_addr]
      exact reg_read_ok_out_irrel _ _ _ _ _ _ _ _ _ h2
    have hf3 : (reg_read (setDeviceId (setDeviceId (setDeviceId m 0 (v 0)) 1 (v 1))
        2 (v 2)).i2c_addr (MLX90614_EREG_ID1 + 3) (bus (MLX90614_EREG_ID1 + 3)).1
        (bus (MLX90614_EREG_ID1 + 3)).2.1 (bus (MLX90614_EREG_ID1 + 3)).2.2.1
        (bus (MLX90614_EREG_ID1 + 3)).2.2.2 (v 2)).1 = false := by
      simp only [setDeviceId_i2c_addr]
      rw [reg_read_fst_out_irrel _ _ _ _ _ _ (v 2) 0]
      exact hfail
    have hrun : mlx90614_get_id bus m =
        (false, setDeviceId (setDeviceId (setDeviceId m 0 (v 0)) 1 (v 1)) 2 (v 2)) := by
      unfold mlx90614_get_id
      calc get_id_loop bus 4 0 0 m
          = get_id_loop bus 3 1 (v 0) (setDeviceId m 0 (v 0)) :=
            get_id_loop_step_ok bus 3 0 0 m (v 0) h0
        _ = get_id_loop bus 2 2 (v 1) (setDeviceId (setDeviceId m 0 (v 0)) 1 (v 1)) :=
            get_id_loop_step_ok bus 2 1 (v 0) _ (v 1) h1s
        _ = get_id_loop bus 1 3 (v 2)
              (setDeviceId (setDeviceId (setDeviceId m 0 (v 0)) 1 (v 1)) 2 (v 2)) :=
            get_id_loop_step_ok bus 1 2 (v 1) _ (v 2) h2s
        _ = (false, setDeviceId (setDeviceId (setDeviceId m 0 (v 0)) 1 (v 1)) 2 (v 2)) :=
            get_id_loop_step_fail bus 0 3 (v 2) _ hf3
    rw [hrun]
    refine ⟨rfl, ?_, ?_, rfl, rfl, rfl, rfl, rfl, rfl, rfl, rfl⟩
    · intro i hi
      interval_cases i <;> rfl
    · intro i hi1 hi2
      interval_cases i
      rfl

/-- Transport for the `get_id_partial_failure` witness: correct frames
for ID words at 0x3C and 0x3D, and a PEC-corrupt (all-zero) answer at
0x3E and beyond. -/
def busTwoGood : ℕ → ℤ × ℕ × ℕ × ℕ := fun reg =>
  if reg = 0x3C then (4, 0x11, 0x22, 0x89)
  else if reg = 0x3D then (4, 0x33, 0x44, 0x2E)
  else (4, 0, 0, 0)

/-- Witness for `get_id_partial_failure`: at bus address 0x5A with
`busTwoGood`, words 0 and 1 read 0x2211 and 0x4433, the word-2 read
fails, and the handle keeps its remaining fields. -/
theorem get_id_partial_failure_witness :
    (mlx90614_get_id busTwoGood { garbageHandle with i2c_addr := 0x5A }).1 = false ∧
    (∀ i, i < 2 →
      deviceId (mlx90614_get_id busTwoGood
        { garbageHandle with i2c_addr := 0x5A }).2 i =
        (if i = 0 then 0x2211 else 0x4433)) ∧
    (∀ i, 2 ≤ i → i < 4 →
      deviceId (mlx90614_get_id busTwoGood
        { garbageHandle with i2c_addr := 0x5A }).2 i =
        deviceId { garbageHandle with i2c_addr := 0x5A } i) ∧
    (mlx90614_get_id busTwoGood { garbageHandle with i2c_addr := 0x5A }).2.i2c_fd =
      ({ garbageHandle with i2c_addr := 0x5A } : Mlx90614T).i2c_fd ∧
    (mlx90614_get_id busTwoGood { garbageHandle with i2c_addr := 0x5A }).2.i2c_addr =
      ({ garbageHandle with i2c_addr := 0x5A } : Mlx90614T).i2c_addr ∧
    (mlx90614_get_id busTwoGood
        { garbageHandle with i2c_addr := 0x5A }).2.temperature_unit =
      ({ garbageHandle with i2c_addr := 0x5A } : Mlx90614T).temperature_unit ∧
    (mlx90614_get_id busTwoGood { garbageHandle with i2c_addr := 0x5A }).2.tobj1 =
      ({ garbageHandle with i2c_addr := 0x5A } : Mlx90614T).tobj1 ∧
    (mlx90614_get_id busTwoGood { garbageHandle with i2c_addr := 0x5A }).2.tobj2 =
      ({ garbageHandle with i2c_addr := 0x5A } : Mlx90614T).tobj2 ∧
    (mlx90614_get_id busTwoGood { garbageHandle with i2c_addr := 0x5A }).2.tomax =
      ({ garbageHandle with i2c_addr := 0x5A } : Mlx90614T).tomax ∧
    (mlx90614_get_id busTwoGood { garbageHandle with i2c_addr := 0x5A }).2.tomin =
      ({ garbageHandle with i2c_addr := 0x5A } : Mlx90614T).tomin ∧
    (mlx90614_get_id busTwoGood { garbageHandle with i2c_addr := 0x5A }).2.ta_range =
      ({ garbageHandle with i2c_addr := 0x5A } : Mlx90614T).ta_range :=
  get_id_partial_failure busTwoGood { garbageHandle with i2c_addr := 0x5A } 2
    (fun i => if i = 0 then 0x2211 else 0x4433) (by norm_num)
    (by decide) (by decide)

end Mlx90614
